import Mathlib

set_option linter.unusedVariables false

/-! Shallow embedding of the distributed work-stealing coordinator of
pChop_subset (src/main.cpp): the wire tags, the worker receive loop
(`worker`, lines 2056-2112), and the master's seeding loop, prefix-dispatch
loop and steal/collect loop (`master`, lines 1725-1997).  Pure control state
(the rank lists, the `offloadActive` flag, the dispatch counter `cnt`) is
modelled explicitly; message receptions are an event list; sends are logged;
`assert` failures and the illegal-tag assertion are an error outcome. -/

/-- Wire tag `START_PREFIX_TASK` (main.cpp line 83). -/
def START_PREFIX_TASK : Nat := 0

/-- Wire tag `KILL` (main.cpp line 84). -/
def KILL : Nat := 1

/-- Wire tag `FINISH` (main.cpp line 85). -/
def FINISH : Nat := 2

/-- Wire tag `OFFLOAD` (main.cpp line 86). -/
def OFFLOAD : Nat := 3

/-- Wire tag `OFFLOAD_RESP` (main.cpp line 87). -/
def OFFLOAD_RESP : Nat := 4

/-- Wire tag `BUG_FOUND` (main.cpp line 88). -/
def BUG_FOUND : Nat := 5

/-- Wire tag `TIMEOUT` (main.cpp line 89). -/
def TIMEOUT : Nat := 6

/-- Wire tag `NORMAL_TASK` (main.cpp line 90). -/
def NORMAL_TASK : Nat := 7

/-- Wire tag `KILL_COMP` (main.cpp line 91). -/
def KILL_COMP : Nat := 8

/-- Wire tag `READY_TO_OFFLOAD` (main.cpp line 92). -/
def READY_TO_OFFLOAD : Nat := 9

/-- Wire tag `NOT_READY_TO_OFFLOAD` (main.cpp line 93). -/
def NOT_READY_TO_OFFLOAD : Nat := 10

/-- A point-to-point send: destination rank, wire tag, payload bytes.
Dummy one-byte payloads of the source are modelled as `[0]`. -/
structure Send where
  dest : Nat
  tag : Nat
  payload : List Nat
deriving Repr, DecidableEq

/-- Messages a worker dispatches on in its receive loop (main.cpp 2069-2110). -/
inductive WMsg where
  | kill
  | startPrefixTask (p : List Nat)
  | normalTask
  | offload
deriving Repr, DecidableEq

/-- Whether the worker returns from `worker` (stop) or stays in its
forever receive loop (loop). -/
inductive WAction where
  | loop
  | stop
deriving Repr, DecidableEq

/-- One iteration of the worker receive loop (main.cpp lines 2061-2111):
probe a message from the master, dispatch on its tag; result is the list of
messages the worker sends back (destination is always rank 0) and whether it
returns from `worker` or continues the loop.  On KILL the worker receives the
payload, prints, and returns without sending anything (2069-2074).  On
START_PREFIX_TASK it runs `executeWorker` to natural termination and then
sends KILL_COMP and returns; the FINISH send on that path is commented out in
the source (2091-2093).  On NORMAL_TASK it runs `executeWorker`, sends FINISH
and stays in the loop (2094-2100).  On OFFLOAD it replies with the single
byte x (ASCII 120) under tag OFFLOAD_RESP and stays in the loop (2102-2109). -/
def workerStep : WMsg → List Send × WAction
  | .kill => ([], .stop)
  | .startPrefixTask _ => ([{ dest := 0, tag := KILL_COMP, payload := [0] }], .stop)
  | .normalTask => ([{ dest := 0, tag := FINISH, payload := [0] }], .loop)
  | .offload => ([{ dest := 0, tag := OFFLOAD_RESP, payload := [120] }], .loop)

/-- Messages the master can receive (tags with their source rank and, for
OFFLOAD_RESP, the payload). -/
inductive MEvent where
  | finish (src : Nat)
  | bugFound (src : Nat)
  | timeout
  | readyToOffload (src : Nat)
  | notReadyToOffload (src : Nat)
  | offloadResp (src : Nat) (payload : List Nat)
  | killComp (src : Nat)
deriving Repr, DecidableEq

/-- Fatal outcomes of the master loops: the closed-alphabet illegal-tag
assertion (main.cpp 1812, 1959), the `assert(found2Erase)` of the dispatch
loop's NOT_READY_TO_OFFLOAD handler (1807), and the
`assert(freeList.size() > 0)` of the OFFLOAD_RESP handler (1943). -/
inductive Fatal where
  | illegalTag
  | notReadyAssert
  | freeAssert
deriving Repr, DecidableEq

/-- Sends of the kill-everyone loop `for(int x=2; x<num_cores; ++x) MPI_Send
(.., x, KILL, ..)` (main.cpp 1791-1793, 1887-1889, 1905-1907). -/
def killAll (N : Nat) : List Send :=
  (List.range' 2 (N - 2)).map (fun x => { dest := x, tag := KILL, payload := [0] })

/-- Expected receives of the kill-complete collection loop `for(int x=2;
x<num_cores; ++x) MPI_Recv(.., x, KILL_COMP, ..)` (main.cpp 1898-1900,
1909-1911): one (source, tag) pair per worker rank. -/
def collectAll (N : Nat) : List (Nat × Nat) :=
  (List.range' 2 (N - 2)).map (fun x => (x, KILL_COMP))

/-- Master state during the prefix-dispatch loop (main.cpp 1712-1719, 1757):
the four rank lists, the dispatch counter `cnt`, and whether the BUG_FOUND
branch has written the Elapsed line to the master log (1784-1788). -/
structure DState where
  freeList : List Nat
  busyList : List Nat
  offloadReadyList : List Nat
  offloadActiveList : List Nat
  cnt : Nat
  bugLogged : Bool
deriving Repr, DecidableEq

/-- One reception of the dispatch loop (main.cpp 1757-1815), entered with
`cnt < pathSizes.size()`.  FINISH: erase the source from busyList and from
offloadActiveList, send `workList[cnt]` back to the source under
START_PREFIX_TASK, re-append the source to busyList, increment cnt
(1759-1782).  BUG_FOUND: log Elapsed and send KILL to every worker rank; the
loop is not exited (1783-1793).  READY_TO_OFFLOAD: append the source to
offloadReadyList (1794-1796).  NOT_READY_TO_OFFLOAD: erase the first
occurrence of the source from offloadReadyList, asserting that one was found
(1797-1807).  Every other tag hits the illegal-tag assertion (1808-1813). -/
def dispatchStep (N : Nat) (wl : List (List Nat)) (st : DState) :
    MEvent → Except Fatal (DState × List Send)
  | .finish src =>
      .ok ({ st with
              busyList := (st.busyList.erase src) ++ [src],
              offloadActiveList := st.offloadActiveList.erase src,
              cnt := st.cnt + 1 },
           [{ dest := src, tag := START_PREFIX_TASK, payload := wl.getD st.cnt [] }])
  | .bugFound _ => .ok ({ st with bugLogged := true }, killAll N)
  | .readyToOffload src =>
      .ok ({ st with offloadReadyList := st.offloadReadyList ++ [src] }, [])
  | .notReadyToOffload src =>
      if src ∈ st.offloadReadyList then
        .ok ({ st with offloadReadyList := st.offloadReadyList.erase src }, [])
      else
        .error .notReadyAssert
  | _ => .error .illegalTag

/-- Outcome of running the dispatch loop over a finite event list: the loop
exits with `cnt = wl.length` leaving unconsumed events, an assertion fires,
or the events run out while the loop still blocks on `MPI_Recv`. -/
inductive DResult where
  | ok (st : DState) (rest : List MEvent) (log : List Send)
  | fatal (f : Fatal) (log : List Send)
  | blocked (st : DState) (log : List Send)
deriving Repr, DecidableEq

/-- Prepend sends to the log of a dispatch-loop outcome. -/
def DResult.addLog (s : List Send) : DResult → DResult
  | .ok st rest log => .ok st rest (s ++ log)
  | .fatal f log => .fatal f (s ++ log)
  | .blocked st log => .blocked st (s ++ log)

/-- The dispatch loop `while(cnt < pathSizes.size()) { MPI_Recv(..); ... }`
(main.cpp 1757-1815) run over a list of incoming events. -/
def dispatchRun (N : Nat) (wl : List (List Nat)) : DState → List MEvent → DResult
  | st, evs =>
    if st.cnt < wl.length then
      match evs with
      | [] => .blocked st []
      | e :: es =>
        match dispatchStep N wl st e with
        | .error f => .fatal f []
        | .ok (st2, s) => DResult.addLog s (dispatchRun N wl st2 es)
    else
      .ok st evs []

/-- The seeding loop (main.cpp 1730-1739): send each element of the first
`min(num_cores-2, K)` work-list entries to ranks 2, 3, ... in order and push
each recipient onto busyList.  Argument `wlist` is that truncated work list
and `currRank` the next rank; the result is the send log and the busyList. -/
def seedWorkers : List (List Nat) → Nat → List Send × List Nat
  | [], _ => ([], [])
  | p :: rest, currRank =>
      let t := seedWorkers rest (currRank + 1)
      ({ dest := currRank, tag := START_PREFIX_TASK, payload := p } :: t.1,
       currRank :: t.2)

/-- The leftover-worker loop (main.cpp 1742-1751): for each remaining rank,
send it KILL when load balancing is off, and push it onto freeList.  Argument
`n` is the number of remaining ranks (`num_cores - currRank`). -/
def killRest (lb : Bool) : Nat → Nat → List Send × List Nat
  | _, 0 => ([], [])
  | currRank, n + 1 =>
      let t := killRest lb (currRank + 1) n
      ((if lb then [] else [{ dest := currRank, tag := KILL, payload := [0] }]) ++ t.1,
       currRank :: t.2)

/-- The whole seeding phase (main.cpp 1725-1751): returns the master state at
entry of the dispatch loop and the send log of seeding. -/
def seedPhase (N : Nat) (lb : Bool) (wl : List (List Nat)) : DState × List Send :=
  let whileCnt := min (N - 2) wl.length
  let seeded := seedWorkers (wl.take whileCnt) 2
  let rest := killRest lb (2 + whileCnt) (N - (2 + whileCnt))
  ({ freeList := rest.2, busyList := seeded.2, offloadReadyList := [],
     offloadActiveList := [], cnt := whileCnt, bugLogged := false },
   seeded.1 ++ rest.1)

/-- Master state during the post-dispatch collection/steal loop (main.cpp
1823-1997): the four rank lists plus the one-outstanding-steal flag
`offloadActive` (1821). -/
structure MState where
  freeList : List Nat
  busyList : List Nat
  offloadReadyList : List Nat
  offloadActiveList : List Nat
  offloadActive : Bool
deriving Repr, DecidableEq

/-- State handed from the dispatch loop to the collection/steal loop:
the lists carry over and `offloadActive` starts false (main.cpp 1821). -/
def phaseCInit (st : DState) : MState :=
  { freeList := st.freeList, busyList := st.busyList,
    offloadReadyList := st.offloadReadyList,
    offloadActiveList := st.offloadActiveList, offloadActive := false }

/-- Why the collection/steal loop called `MPI_Abort`: BUG_FOUND (main.cpp
1836-1844), all workers finished (1882-1901), or TIMEOUT (1903-1912). -/
inductive AbortReason where
  | bug
  | allFinished
  | timeout
deriving Repr, DecidableEq

/-- Result of handling one event in the collection/steal loop: continue with
a new state after some sends, abort (with the sends made, the KILL_COMP
receives collected, and whether the Elapsed line was logged), or a fatal
assertion. -/
inductive CStep where
  | next (st : MState) (sends : List Send)
  | aborted (r : AbortReason) (sends : List Send) (recvs : List (Nat × Nat))
      (elapsedLogged : Bool)
  | fatal (f : Fatal) (sends : List Send)
deriving Repr, DecidableEq

/-- Message handling of the collection/steal loop (main.cpp 1836-1960),
without the steal trigger.  BUG_FOUND: log Elapsed, abort (1836-1844).
FINISH: append the source to freeList unless already present, erase it from
busyList, erase it from offloadActiveList clearing `offloadActive` when it
was there, erase it from offloadReadyList; if freeList now holds all
`num_cores - 2` workers, send KILL to every worker, log Elapsed, collect one
KILL_COMP per worker and abort (1845-1902).  TIMEOUT: send KILL to every
worker, collect one KILL_COMP per worker, abort (1903-1912).
READY_TO_OFFLOAD: append the source to offloadReadyList (1914-1916).
NOT_READY_TO_OFFLOAD: erase the first occurrence of the source from
offloadReadyList; absence is tolerated, the assert being commented out
(1917-1927).  OFFLOAD_RESP: erase the source from offloadActiveList; when
the payload length exceeds 4, assert freeList non-empty, send the payload to
the front free worker under START_PREFIX_TASK, move that worker to busyList;
in every non-fatal case clear `offloadActive` (1928-1952).  Any other tag
hits the illegal-tag assertion (1953-1960). -/
def mainHandle (N : Nat) (st : MState) : MEvent → CStep
  | .bugFound _ => .aborted .bug [] [] true
  | .finish src =>
      let free1 := if src ∈ st.freeList then st.freeList else st.freeList ++ [src]
      let busy1 := st.busyList.erase src
      let act1 := st.offloadActiveList.erase src
      let flag1 := if src ∈ st.offloadActiveList then false else st.offloadActive
      let ready1 := st.offloadReadyList.erase src
      if free1.length = N - 2 then
        .aborted .allFinished (killAll N) (collectAll N) true
      else
        .next { freeList := free1, busyList := busy1, offloadReadyList := ready1,
                offloadActiveList := act1, offloadActive := flag1 } []
  | .timeout => .aborted .timeout (killAll N) (collectAll N) false
  | .readyToOffload src =>
      .next { st with offloadReadyList := st.offloadReadyList ++ [src] } []
  | .notReadyToOffload src =>
      .next { st with offloadReadyList := st.offloadReadyList.erase src } []
  | .offloadResp src payload =>
      let act1 := st.offloadActiveList.erase src
      if 4 < payload.length then
        match st.freeList with
        | [] => .fatal .freeAssert []
        | picked :: restFree =>
            .next { freeList := restFree, busyList := st.busyList ++ [picked],
                    offloadReadyList := st.offloadReadyList,
                    offloadActiveList := act1, offloadActive := false }
                  [{ dest := picked, tag := START_PREFIX_TASK, payload := payload }]
      else
        .next { st with offloadActiveList := act1, offloadActive := false } []
  | .killComp _ => .fatal .illegalTag []

/-- The steal trigger run at the bottom of every iteration of the
collection/steal loop (main.cpp 1963-1996): when load balancing is on, some
worker is free, not all are free, some worker is offload-ready and no steal
is outstanding, pick the first member of offloadReadyList not already in
offloadActiveList, append it to offloadActiveList, send it OFFLOAD and set
`offloadActive`. -/
def stealTrigger (N : Nat) (lb : Bool) (st : MState) : MState × List Send :=
  if lb = true ∧ 0 < st.freeList.length ∧ st.freeList.length < N - 2 ∧
      0 < st.offloadReadyList.length ∧ st.offloadActive = false then
    match st.offloadReadyList.find? (fun r => !st.offloadActiveList.contains r) with
    | none => (st, [])
    | some w =>
        ({ st with offloadActiveList := st.offloadActiveList ++ [w],
                   offloadActive := true },
         [{ dest := w, tag := OFFLOAD, payload := [0] }])
  else
    (st, [])

/-- One iteration of the collection/steal loop (main.cpp 1823-1997): an
optional reception (`MPI_Iprobe` may find nothing) handled by `mainHandle`,
followed — unless the iteration aborted or asserted — by the steal trigger. -/
def mainStep (N : Nat) (lb : Bool) (st : MState) : Option MEvent → CStep
  | none =>
      let t := stealTrigger N lb st
      .next t.1 t.2
  | some m =>
      match mainHandle N st m with
      | .next st1 s =>
          let t := stealTrigger N lb st1
          .next t.1 (s ++ t.2)
      | .aborted r s rc el => .aborted r s rc el
      | .fatal f s => .fatal f s

/-- Outcome of running the collection/steal loop over a finite iteration
list: still running, aborted, or a fatal assertion; with the send log. -/
inductive CRun where
  | running (st : MState) (log : List Send)
  | aborted (r : AbortReason) (log : List Send) (recvs : List (Nat × Nat))
      (elapsedLogged : Bool)
  | fatal (f : Fatal) (log : List Send)
deriving Repr, DecidableEq

/-- Prepend sends to the log of a collection/steal-loop outcome. -/
def CRun.addLog (s : List Send) : CRun → CRun
  | .running st log => .running st (s ++ log)
  | .aborted r log rc el => .aborted r (s ++ log) rc el
  | .fatal f log => .fatal f (s ++ log)

/-- The collection/steal loop run over a list of iterations, each with an
optional incoming message. -/
def mainRun (N : Nat) (lb : Bool) : MState → List (Option MEvent) → CRun
  | st, [] => .running st []
  | st, e :: es =>
    match mainStep N lb st e with
    | .next st1 s => CRun.addLog s (mainRun N lb st1 es)
    | .aborted r s rc el => .aborted r s rc el
    | .fatal f s => .fatal f s

/-- The payloads of the START_PREFIX_TASK sends of a log, in send order. -/
def prefixTaskPayloads (log : List Send) : List (List Nat) :=
  (log.filter (fun s => s.tag == START_PREFIX_TASK)).map (fun s => s.payload)

/-- The destinations of the START_PREFIX_TASK sends of a log, in send order. -/
def prefixTaskTargets (log : List Send) : List Nat :=
  (log.filter (fun s => s.tag == START_PREFIX_TASK)).map (fun s => s.dest)

/-- The steal bookkeeping invariant of the collection/steal loop: at most one
rank in offloadActiveList, and the `offloadActive` flag is set exactly when
that list is non-empty. -/
def MInv (st : MState) : Prop :=
  st.offloadActiveList.length ≤ 1 ∧ st.offloadActive = !st.offloadActiveList.isEmpty

instance : DecidablePred MInv := fun st => by
  unfold MInv
  infer_instance

/-- A trace restriction for the collection/steal loop: every OFFLOAD_RESP
processed comes from a rank currently in offloadActiveList (no stale
response from a worker whose steal bookkeeping was already cleared). -/
def noStale (N : Nat) (lb : Bool) : MState → List (Option MEvent) → Bool
  | _, [] => true
  | st, e :: es =>
    (match e with
     | some (.offloadResp src _) => decide (src ∈ st.offloadActiveList)
     | _ => true) &&
    (match mainStep N lb st e with
     | .next st1 _ => noStale N lb st1 es
     | _ => true)

/-- Observer: the state of a still-running collection/steal loop. -/
def CRun.stateOf : CRun → Option MState
  | .running st _ => some st
  | _ => none

/-- Observer: the assertion a collection/steal-loop run died on, if any. -/
def CRun.fatalOf : CRun → Option Fatal
  | .fatal f _ => some f
  | _ => none

/-- C1: on StartPrefixTask whose interpreter run terminates naturally, the
worker does NOT send Finish and does NOT stay in its receive loop: the source
(main.cpp 2091-2093, FINISH send commented out) sends KILL_COMP and returns
from `worker`.  This theorem evaluates the code at the failing input,
supporting the code_bug verdict: the master's dispatch loop expects FINISH
and treats KILL_COMP as an illegal tag. -/
theorem c1_worker_task_killcomp_exit (p : List Nat) :
    workerStep (WMsg.startPrefixTask p) =
      ([{ dest := 0, tag := KILL_COMP, payload := [0] }], WAction.stop) ∧
    KILL_COMP ≠ FINISH ∧ WAction.stop ≠ WAction.loop := by
  refine ⟨rfl, ?_, ?_⟩ <;> decide

/-- C2: on Kill the worker sends nothing before returning (main.cpp
2069-2074), while the master's shutdown collects one KILL_COMP per worker
rank (here instantiated at N = 5: ranks 2, 3, 4).  This theorem evaluates the
code at the failing input, supporting the code_bug verdict. -/
theorem c2_worker_kill_sends_nothing :
    workerStep WMsg.kill = ([], WAction.stop) ∧
    collectAll 5 = [(2, KILL_COMP), (3, KILL_COMP), (4, KILL_COMP)] := by
  refine ⟨rfl, ?_⟩
  decide

/-- C10: a worker that receives an Offload request in its top-level receive
loop replies with exactly one OffloadResp whose payload is the single byte x
(ASCII 120, length 1, the empty-offer sentinel), and stays in its loop. -/
theorem c10_worker_idle_offload_reply :
    workerStep WMsg.offload =
      ([{ dest := 0, tag := OFFLOAD_RESP, payload := [120] }], WAction.loop) ∧
    (workerStep WMsg.offload).1.map (fun sd => sd.payload.length) = [1] := by
  exact ⟨rfl, rfl⟩

/-- C3 counterexample: with N = 4 and three prefixes, after seeding the
master receives BugFound from worker 2 and then Finish from worker 3; the
dispatch loop does not terminate on the BugFound (it only sends KILL to both
workers) and the subsequent Finish still dispatches the pending prefix
[1, 0] to worker 3 — refuting that the master never dispatches further work
or continues its event loop after BugFound. -/
theorem c3_counterexample :
    dispatchRun 4 [[0], [1], [1, 0]] (seedPhase 4 false [[0], [1], [1, 0]]).1
        [MEvent.bugFound 2, MEvent.finish 3] =
      DResult.ok
        { freeList := [], busyList := [2, 3], offloadReadyList := [],
          offloadActiveList := [], cnt := 3, bugLogged := true }
        []
        [{ dest := 2, tag := KILL, payload := [0] },
         { dest := 3, tag := KILL, payload := [0] },
         { dest := 3, tag := START_PREFIX_TASK, payload := [1, 0] }] := by
  decide

/-- C3 amended: a BugFound received in the post-dispatch collection loop logs
the elapsed time and aborts at once with bug status (no kills are sent there,
MPI_Abort being authoritative); a BugFound received in the dispatch loop logs
the elapsed time and sends Kill to every worker rank but does not exit the
loop, whose state (in particular `cnt`) is otherwise unchanged. -/
theorem c3_bugfound_by_phase :
    (∀ (N : Nat) (lb : Bool) (st : MState) (src : Nat),
        mainStep N lb st (some (MEvent.bugFound src)) =
          CStep.aborted AbortReason.bug [] [] true) ∧
    (∀ (N : Nat) (wl : List (List Nat)) (st : DState) (src : Nat),
        dispatchStep N wl st (MEvent.bugFound src) =
          Except.ok ({ st with bugLogged := true }, killAll N)) :=
  ⟨fun _ _ _ _ => rfl, fun _ _ _ _ => rfl⟩

/-- C4 counterexample: with N = 4 and three prefixes, a Timeout message
arriving while the dispatch loop is still running hits the master's
illegal-tag assertion instead of triggering a clean shutdown — refuting that
Timeout is never treated as a protocol error or fatal assertion. -/
theorem c4_counterexample :
    dispatchRun 4 [[0], [1], [1, 0]] (seedPhase 4 false [[0], [1], [1, 0]]).1
        [MEvent.timeout] =
      DResult.fatal Fatal.illegalTag [] := by
  decide

/-- C4 amended: a Timeout received in the post-dispatch collection loop
performs the clean shutdown (Kill to every worker rank, one KillComplete
collected per worker, abort, no Elapsed line); a Timeout received in the
dispatch loop hits the illegal-tag assertion. -/
theorem c4_timeout_by_phase :
    (∀ (N : Nat) (lb : Bool) (st : MState),
        mainStep N lb st (some MEvent.timeout) =
          CStep.aborted AbortReason.timeout (killAll N) (collectAll N) false) ∧
    (∀ (N : Nat) (wl : List (List Nat)) (st : DState),
        dispatchStep N wl st MEvent.timeout = Except.error Fatal.illegalTag) :=
  ⟨fun _ _ _ => rfl, fun _ _ _ => rfl⟩

/-- C9 counterexample: with N = 4 and three prefixes, after seeding (where
offloadReadyList is empty) a NotReadyToOffload from worker 2 arriving in the
dispatch loop hits the `assert(found2Erase)` — refuting that a stale
not-ready is tolerated at any phase of the run. -/
theorem c9_counterexample :
    dispatchRun 4 [[0], [1], [1, 0]] (seedPhase 4 false [[0], [1], [1, 0]]).1
        [MEvent.notReadyToOffload 2] =
      DResult.fatal Fatal.notReadyAssert [] := by
  decide

/-- C9 amended: the post-dispatch collection loop removes the first
occurrence of the source from OffloadReady and tolerates absence (the state
is unchanged when the source is absent); the dispatch loop removes it when
present but hits the `assert(found2Erase)` when absent. -/
theorem c9_notready_by_phase :
    (∀ (N : Nat) (st : MState) (src : Nat),
        mainHandle N st (MEvent.notReadyToOffload src) =
          CStep.next { st with
            offloadReadyList := st.offloadReadyList.erase src } []) ∧
    (∀ (N : Nat) (st : MState) (src : Nat), src ∉ st.offloadReadyList →
        mainHandle N st (MEvent.notReadyToOffload src) = CStep.next st []) ∧
    (∀ (N : Nat) (wl : List (List Nat)) (st : DState) (src : Nat),
        src ∈ st.offloadReadyList →
        dispatchStep N wl st (MEvent.notReadyToOffload src) =
          Except.ok ({ st with
            offloadReadyList := st.offloadReadyList.erase src }, [])) ∧
    (∀ (N : Nat) (wl : List (List Nat)) (st : DState) (src : Nat),
        src ∉ st.offloadReadyList →
        dispatchStep N wl st (MEvent.notReadyToOffload src) =
          Except.error Fatal.notReadyAssert) := by
  refine ⟨fun _ _ _ => rfl, fun N st src h => ?_, fun N wl st src h => ?_,
          fun N wl st src h => ?_⟩
  · simp only [mainHandle, List.erase_of_not_mem h]
  · simp only [dispatchStep, if_pos h]
  · simp only [dispatchStep, if_neg h]

/-- C9 witness: the amended statement applied at concrete inputs, with every
hypothesis discharged. -/
theorem c9_notready_by_phase_witness :
    mainHandle 4
        { freeList := [2], busyList := [3], offloadReadyList := [],
          offloadActiveList := [], offloadActive := false }
        (MEvent.notReadyToOffload 3) =
      CStep.next
        { freeList := [2], busyList := [3], offloadReadyList := [],
          offloadActiveList := [], offloadActive := false } [] ∧
    dispatchStep 4 [[0]]
        { freeList := [], busyList := [2, 3], offloadReadyList := [3],
          offloadActiveList := [], cnt := 1, bugLogged := false }
        (MEvent.notReadyToOffload 3) =
      Except.ok
        ({ freeList := [], busyList := [2, 3], offloadReadyList := [],
           offloadActiveList := [], cnt := 1, bugLogged := false }, []) ∧
    dispatchStep 4 [[0]]
        { freeList := [], busyList := [2, 3], offloadReadyList := [3],
          offloadActiveList := [], cnt := 1, bugLogged := false }
        (MEvent.notReadyToOffload 2) =
      Except.error Fatal.notReadyAssert := by
  refine ⟨?_, ?_, ?_⟩
  · have h := c9_notready_by_phase.2.1 4
      { freeList := [2], busyList := [3], offloadReadyList := [],
        offloadActiveList := [], offloadActive := false } 3 (by decide)
    simpa using h
  · have h := c9_notready_by_phase.2.2.1 4 [[0]]
      { freeList := [], busyList := [2, 3], offloadReadyList := [3],
        offloadActiveList := [], cnt := 1, bugLogged := false } 3 (by decide)
    simpa using h
  · exact c9_notready_by_phase.2.2.2 4 [[0]]
      { freeList := [], busyList := [2, 3], offloadReadyList := [3],
        offloadActiveList := [], cnt := 1, bugLogged := false } 2 (by decide)

/-- Closed form of the leftover-worker loop: the ranks pushed onto freeList
are `range' currRank n`, and the sends are one KILL per such rank exactly
when load balancing is off. -/
theorem killRest_spec (lb : Bool) : ∀ (n r : Nat),
    killRest lb r n =
      ((if lb then []
        else (List.range' r n).map
          (fun x => ({ dest := x, tag := KILL, payload := [0] } : Send))),
       List.range' r n)
  | 0, r => by cases lb <;> simp [killRest]
  | n + 1, r => by
      have ih := killRest_spec lb n (r + 1)
      cases lb <;> simp [killRest, ih, List.range'_succ]

/-- The seeding loop sends the given prefixes, in order, as START_PREFIX_TASK
to consecutive ranks starting at `r`, pushes exactly those ranks onto
busyList, and sends no KILL. -/
theorem seedWorkers_spec : ∀ (wlist : List (List Nat)) (r : Nat),
    (seedWorkers wlist r).2 = List.range' r wlist.length ∧
    prefixTaskPayloads (seedWorkers wlist r).1 = wlist ∧
    prefixTaskTargets (seedWorkers wlist r).1 = List.range' r wlist.length ∧
    (seedWorkers wlist r).1.filter (fun sd => sd.tag == KILL) = []
  | [], r => by simp [seedWorkers, prefixTaskPayloads, prefixTaskTargets]
  | p :: rest, r => by
      have ih := seedWorkers_spec rest (r + 1)
      refine ⟨?_, ?_, ?_, ?_⟩
      · simp [seedWorkers, ih.1, List.range'_succ]
      · simpa [seedWorkers, prefixTaskPayloads] using ih.2.1
      · simp only [seedWorkers, prefixTaskTargets, List.length_cons, List.range'_succ]
        simpa [prefixTaskTargets] using ih.2.2.1
      · simpa [seedWorkers, KILL, START_PREFIX_TASK] using ih.2.2.2

/-- C7: at seeding with fewer prefixes than workers, every rank that got no
initial prefix (ranks `2 + K` through `N - 1`) enters freeList, and exactly
those ranks are sent a KILL at that point if and only if load balancing is
off. -/
theorem c7_seeding_leftover_workers (N : Nat) (lb : Bool) (wl : List (List Nat))
    (h : wl.length < N - 2) :
    (seedPhase N lb wl).1.freeList =
      List.range' (2 + wl.length) (N - 2 - wl.length) ∧
    (seedPhase N lb wl).2.filter (fun sd => sd.tag == KILL) =
      (if lb then []
       else (List.range' (2 + wl.length) (N - 2 - wl.length)).map
         (fun x => { dest := x, tag := KILL, payload := [0] })) := by
  have hmin : min (N - 2) wl.length = wl.length := Nat.min_eq_right h.le
  have hsub : N - (2 + wl.length) = N - 2 - wl.length := by omega
  have hk := killRest_spec lb (N - 2 - wl.length) (2 + wl.length)
  have hs := (seedWorkers_spec wl 2).2.2.2
  constructor
  · simp [seedPhase, hmin, hsub, hk]
  · simp only [seedPhase, hmin, List.take_length, List.filter_append, hsub, hs,
      List.nil_append, hk]
    cases lb
    · simp only [Bool.false_eq_true, if_neg, ite_false]
      refine List.filter_eq_self.mpr ?_
      intro a ha
      obtain ⟨x, hx, rfl⟩ := List.mem_map.1 ha
      simp
    · simp

/-- C7 witness: N = 5, one prefix, load balancing off — workers 3 and 4
enter freeList and are each sent a KILL. -/
theorem c7_seeding_leftover_workers_witness :
    ([[0]] : List (List Nat)).length < 5 - 2 ∧
    ((seedPhase 5 false [[0]]).1.freeList = List.range' (2 + 1) (5 - 2 - 1) ∧
     (seedPhase 5 false [[0]]).2.filter (fun sd => sd.tag == KILL) =
       (if false then []
        else (List.range' (2 + 1) (5 - 2 - 1)).map
          (fun x => { dest := x, tag := KILL, payload := [0] }))) :=
  ⟨by decide, c7_seeding_leftover_workers 5 false [[0]] (by decide)⟩

/-- Filtering a log for START_PREFIX_TASK payloads distributes over append. -/
theorem prefixTaskPayloads_append (a b : List Send) :
    prefixTaskPayloads (a ++ b) = prefixTaskPayloads a ++ prefixTaskPayloads b := by
  simp [prefixTaskPayloads, List.filter_append]

/-- The kill-everyone loop contributes no START_PREFIX_TASK sends. -/
theorem killAll_no_task (N : Nat) : prefixTaskPayloads (killAll N) = [] := by
  simp [prefixTaskPayloads, killAll, List.filter_map, Function.comp,
    KILL, START_PREFIX_TASK]

/-- Running the dispatch loop to completion sends exactly the pending
suffix of the work list (the entries from `cnt` on), in order, as
START_PREFIX_TASK payloads. -/
theorem dispatchRun_payloads (N : Nat) (wl : List (List Nat)) :
    ∀ (evs : List MEvent) (st st' : DState) (rest : List MEvent) (log : List Send),
      dispatchRun N wl st evs = DResult.ok st' rest log →
      prefixTaskPayloads log = wl.drop st.cnt := by
  intro evs
  induction evs with
  | nil =>
    intro st st' rest log h
    simp only [dispatchRun] at h
    split at h
    · simp at h
    · rename_i hge
      injection h with h1 h2 h3
      subst h1
      subst h2
      subst h3
      simp [prefixTaskPayloads, List.drop_eq_nil_of_le (Nat.le_of_not_lt hge)]
  | cons e es ih =>
    intro st st' rest log h
    simp only [dispatchRun] at h
    split at h
    case isFalse hge =>
      injection h with h1 h2 h3
      subst h1
      subst h2
      subst h3
      simp [prefixTaskPayloads, List.drop_eq_nil_of_le (Nat.le_of_not_lt hge)]
    case isTrue hlt =>
      cases e with
      | finish src =>
        simp only [dispatchStep] at h
        cases hrec : dispatchRun N wl
            { st with
              busyList := (st.busyList.erase src) ++ [src],
              offloadActiveList := st.offloadActiveList.erase src,
              cnt := st.cnt + 1 } es with
        | ok st2 rest2 log2 =>
          rw [hrec] at h
          simp only [DResult.addLog, List.singleton_append] at h
          injection h with h1 h2 h3
          subst h1
          subst h2
          subst h3
          have hp := ih _ _ _ _ hrec
          simp only [prefixTaskPayloads] at hp
          simp [prefixTaskPayloads, List.filter_cons, hp]
          rw [List.getElem?_eq_getElem hlt, Option.getD_some]
          exact (List.drop_eq_getElem_cons hlt).symm
        | fatal f log2 =>
          rw [hrec] at h
          simp [DResult.addLog] at h
        | blocked st2 log2 =>
          rw [hrec] at h
          simp [DResult.addLog] at h
      | bugFound src =>
        simp only [dispatchStep] at h
        cases hrec : dispatchRun N wl { st with bugLogged := true } es with
        | ok st2 rest2 log2 =>
          rw [hrec] at h
          simp only [DResult.addLog] at h
          injection h with h1 h2 h3
          subst h1
          subst h2
          subst h3
          have hp := ih _ _ _ _ hrec
          simp [prefixTaskPayloads_append, killAll_no_task, hp]
        | fatal f log2 =>
          rw [hrec] at h
          simp [DResult.addLog] at h
        | blocked st2 log2 =>
          rw [hrec] at h
          simp [DResult.addLog] at h
      | timeout => simp [dispatchStep] at h
      | readyToOffload src =>
        simp only [dispatchStep] at h
        cases hrec : dispatchRun N wl
            { st with offloadReadyList := st.offloadReadyList ++ [src] } es with
        | ok st2 rest2 log2 =>
          rw [hrec] at h
          simp only [DResult.addLog, List.nil_append] at h
          injection h with h1 h2 h3
          subst h1
          subst h2
          subst h3
          have hp := ih _ _ _ _ hrec
          exact hp
        | fatal f log2 =>
          rw [hrec] at h
          simp [DResult.addLog] at h
        | blocked st2 log2 =>
          rw [hrec] at h
          simp [DResult.addLog] at h
      | notReadyToOffload src =>
        by_cases hmem : src ∈ st.offloadReadyList
        · simp only [dispatchStep, if_pos hmem] at h
          cases hrec : dispatchRun N wl
              { st with offloadReadyList := st.offloadReadyList.erase src } es with
          | ok st2 rest2 log2 =>
            rw [hrec] at h
            simp only [DResult.addLog, List.nil_append] at h
            injection h with h1 h2 h3
            subst h1
            subst h2
            subst h3
            have hp := ih _ _ _ _ hrec
            exact hp
          | fatal f log2 =>
            rw [hrec] at h
            simp [DResult.addLog] at h
          | blocked st2 log2 =>
            rw [hrec] at h
            simp [DResult.addLog] at h
        · simp [dispatchStep, if_neg hmem] at h
      | offloadResp src payload => simp [dispatchStep] at h
      | killComp src => simp [dispatchStep] at h

/-- The leftover-worker loop contributes no START_PREFIX_TASK sends. -/
theorem killRest_filter_task (lb : Bool) (n r : Nat) :
    (killRest lb r n).1.filter (fun sd => sd.tag == START_PREFIX_TASK) = [] := by
  rw [killRest_spec]
  cases lb
  · refine List.filter_eq_nil_iff.mpr ?_
    intro a ha
    simp only [Bool.false_eq_true, if_neg, ite_false] at ha
    obtain ⟨x, hx, rfl⟩ := List.mem_map.1 ha
    simp [KILL, START_PREFIX_TASK]
  · simp

/-- The seeding phase sends exactly the first `min(W, K)` prefixes, in work
list order, to ranks 2, 3, ... in rank order. -/
theorem seedPhase_tasks (N : Nat) (lb : Bool) (wl : List (List Nat)) :
    prefixTaskPayloads (seedPhase N lb wl).2 = wl.take (min (N - 2) wl.length) ∧
    prefixTaskTargets (seedPhase N lb wl).2 =
      List.range' 2 (min (N - 2) wl.length) := by
  have hs := seedWorkers_spec (wl.take (min (N - 2) wl.length)) 2
  have hlen : (wl.take (min (N - 2) wl.length)).length = min (N - 2) wl.length := by
    rw [List.length_take]
    exact Nat.min_eq_left (Nat.min_le_right _ _)
  constructor
  · simp only [seedPhase, prefixTaskPayloads, List.filter_append, List.map_append]
    have h1 : prefixTaskPayloads (seedWorkers (wl.take (min (N - 2) wl.length)) 2).1 =
        wl.take (min (N - 2) wl.length) := hs.2.1
    have h2 : prefixTaskPayloads
        (killRest lb (2 + min (N - 2) wl.length) (N - (2 + min (N - 2) wl.length))).1 = [] := by
      simp [prefixTaskPayloads, killRest_filter_task]
    simp only [prefixTaskPayloads] at h1 h2
    rw [h1, h2, List.append_nil]
  · simp only [seedPhase, prefixTaskTargets, List.filter_append, List.map_append]
    have h1 : prefixTaskTargets (seedWorkers (wl.take (min (N - 2) wl.length)) 2).1 =
        List.range' 2 (min (N - 2) wl.length) := by
      rw [hs.2.2.1, hlen]
    have h2 : prefixTaskTargets
        (killRest lb (2 + min (N - 2) wl.length) (N - (2 + min (N - 2) wl.length))).1 = [] := by
      simp [prefixTaskTargets, killRest_filter_task]
    simp only [prefixTaskTargets] at h1 h2
    rw [h1, h2, List.append_nil]

/-- C6: whenever the dispatch loop, started from the seeded state, runs to
completion, the full send log carries every phase-1 prefix exactly once, in
work-list (FIFO) order, as START_PREFIX_TASK payloads; the seeding sends go
to ranks 2, 3, ... in rank order; and within the dispatch loop a
START_PREFIX_TASK send happens only while handling a Finish event, goes to
that event's source, and carries the next pending prefix. -/
theorem c6_partition (N : Nat) (lb : Bool) (wl : List (List Nat))
    (evs : List MEvent) (st' : DState) (rest : List MEvent) (log : List Send)
    (hrun : dispatchRun N wl (seedPhase N lb wl).1 evs = DResult.ok st' rest log) :
    prefixTaskPayloads ((seedPhase N lb wl).2 ++ log) = wl ∧
    prefixTaskTargets (seedPhase N lb wl).2 =
      List.range' 2 (min (N - 2) wl.length) ∧
    (∀ (dst : DState) (e : MEvent) (dst2 : DState) (s : List Send),
      dispatchStep N wl dst e = Except.ok (dst2, s) →
      ∀ sd ∈ s, sd.tag = START_PREFIX_TASK →
        ∃ r, e = MEvent.finish r ∧ sd.dest = r ∧
          sd.payload = wl.getD dst.cnt []) := by
  refine ⟨?_, (seedPhase_tasks N lb wl).2, ?_⟩
  · have hd := dispatchRun_payloads N wl evs _ st' rest log hrun
    have hcnt : (seedPhase N lb wl).1.cnt = min (N - 2) wl.length := rfl
    rw [hcnt] at hd
    rw [prefixTaskPayloads_append, (seedPhase_tasks N lb wl).1, hd]
    exact List.take_append_drop _ wl
  · intro dst e dst2 s hstep sd hsd htag
    cases e with
    | finish src =>
      simp only [dispatchStep, Except.ok.injEq, Prod.mk.injEq] at hstep
      obtain ⟨h1, h2⟩ := hstep
      subst h2
      simp only [List.mem_singleton] at hsd
      subst hsd
      exact ⟨src, rfl, rfl, rfl⟩
    | bugFound src =>
      simp only [dispatchStep, Except.ok.injEq, Prod.mk.injEq] at hstep
      obtain ⟨h1, h2⟩ := hstep
      subst h2
      simp only [killAll, List.mem_map] at hsd
      obtain ⟨x, hx, rfl⟩ := hsd
      simp [KILL, START_PREFIX_TASK] at htag
    | timeout => simp [dispatchStep] at hstep
    | readyToOffload src =>
      simp only [dispatchStep, Except.ok.injEq, Prod.mk.injEq] at hstep
      obtain ⟨h1, h2⟩ := hstep
      subst h2
      simp at hsd
    | notReadyToOffload src =>
      by_cases hmem : src ∈ dst.offloadReadyList
      · simp only [dispatchStep, if_pos hmem, Except.ok.injEq, Prod.mk.injEq] at hstep
        obtain ⟨h1, h2⟩ := hstep
        subst h2
        simp at hsd
      · simp [dispatchStep, if_neg hmem] at hstep
    | offloadResp src payload => simp [dispatchStep] at hstep
    | killComp src => simp [dispatchStep] at hstep

/-- C6 witness: N = 4, three prefixes — seeding sends the first two to ranks
2 and 3, and one Finish from worker 2 dispatches the third prefix to it,
completing the queue. -/
theorem c6_partition_witness :
    dispatchRun 4 [[0], [1], [0, 1]] (seedPhase 4 true [[0], [1], [0, 1]]).1
        [MEvent.finish 2] =
      DResult.ok
        { freeList := [], busyList := [3, 2], offloadReadyList := [],
          offloadActiveList := [], cnt := 3, bugLogged := false }
        []
        [{ dest := 2, tag := START_PREFIX_TASK, payload := [0, 1] }] ∧
    (prefixTaskPayloads ((seedPhase 4 true [[0], [1], [0, 1]]).2 ++
        [{ dest := 2, tag := START_PREFIX_TASK, payload := [0, 1] }]) =
      [[0], [1], [0, 1]] ∧
     prefixTaskTargets (seedPhase 4 true [[0], [1], [0, 1]]).2 =
       List.range' 2 (min (4 - 2) 3) ∧
     (∀ (dst : DState) (e : MEvent) (dst2 : DState) (s : List Send),
        dispatchStep 4 [[0], [1], [0, 1]] dst e = Except.ok (dst2, s) →
        ∀ sd ∈ s, sd.tag = START_PREFIX_TASK →
          ∃ r, e = MEvent.finish r ∧ sd.dest = r ∧
            sd.payload = [[0], [1], [0, 1]].getD dst.cnt [])) :=
  ⟨by decide,
   c6_partition 4 true [[0], [1], [0, 1]] [MEvent.finish 2]
     { freeList := [], busyList := [3, 2], offloadReadyList := [],
       offloadActiveList := [], cnt := 3, bugLogged := false }
     []
     [{ dest := 2, tag := START_PREFIX_TASK, payload := [0, 1] }]
     (by decide)⟩

/-- C5 counterexample: a reachable run (N = 6, lb on, four prefixes seeded so
the dispatch loop consumes nothing) in which stale OffloadResp replies leave
two steal requests outstanding; the final OffloadResp with payload length 5
arrives while freeList is empty and hits `assert(freeList.size() > 0)` —
refuting that the master discards such a payload without error. -/
theorem c5_counterexample :
    dispatchRun 6 [[0], [1], [0], [1]]
        (seedPhase 6 true [[0], [1], [0], [1]]).1 [] =
      DResult.ok (seedPhase 6 true [[0], [1], [0], [1]]).1 [] [] ∧
    (mainRun 6 true (phaseCInit (seedPhase 6 true [[0], [1], [0], [1]]).1)
        [some (MEvent.finish 2), some (MEvent.readyToOffload 3),
         some (MEvent.readyToOffload 4), some (MEvent.finish 3),
         some (MEvent.readyToOffload 5), some (MEvent.offloadResp 3 [120]),
         some (MEvent.offloadResp 4 [0, 0, 0, 0, 0]),
         some (MEvent.offloadResp 4 [0, 0, 0, 0, 0]),
         some (MEvent.offloadResp 5 [0, 0, 0, 0, 0])]).fatalOf =
      some Fatal.freeAssert := by
  exact ⟨by decide, by decide⟩

/-- C5 amended: on OffloadResp with payload length greater than 4 and an
empty freeList the master hits `assert(freeList.size() > 0)` (fatal) rather
than discarding; with payload length at most 4 it discards, clearing the
steal bookkeeping; and it dispatches the payload as a START_PREFIX_TASK to
the front free worker exactly when the length exceeds 4 and freeList is
non-empty, also clearing the bookkeeping. -/
theorem c5_offloadresp_behavior :
    (∀ (N : Nat) (st : MState) (src : Nat) (p : List Nat),
        4 < p.length → st.freeList = [] →
        mainHandle N st (MEvent.offloadResp src p) =
          CStep.fatal Fatal.freeAssert []) ∧
    (∀ (N : Nat) (st : MState) (src : Nat) (p : List Nat),
        p.length ≤ 4 →
        mainHandle N st (MEvent.offloadResp src p) =
          CStep.next { st with
            offloadActiveList := st.offloadActiveList.erase src,
            offloadActive := false } []) ∧
    (∀ (N : Nat) (st : MState) (src : Nat) (p : List Nat) (picked : Nat)
        (restFree : List Nat),
        4 < p.length → st.freeList = picked :: restFree →
        mainHandle N st (MEvent.offloadResp src p) =
          CStep.next
            { freeList := restFree, busyList := st.busyList ++ [picked],
              offloadReadyList := st.offloadReadyList,
              offloadActiveList := st.offloadActiveList.erase src,
              offloadActive := false }
            [{ dest := picked, tag := START_PREFIX_TASK, payload := p }]) := by
  refine ⟨fun N st src p h4 hf => ?_, fun N st src p h4 => ?_,
          fun N st src p picked restFree h4 hf => ?_⟩
  · simp only [mainHandle, if_pos h4, hf]
  · simp only [mainHandle, if_neg (by omega : ¬ 4 < p.length)]
  · simp only [mainHandle, if_pos h4, hf]

/-- C5 witness: the amended statement applied at concrete inputs, with every
hypothesis discharged. -/
theorem c5_offloadresp_behavior_witness :
    mainHandle 5
        { freeList := [], busyList := [2], offloadReadyList := [],
          offloadActiveList := [3], offloadActive := true }
        (MEvent.offloadResp 3 [0, 0, 0, 0, 0]) =
      CStep.fatal Fatal.freeAssert [] ∧
    mainHandle 5
        { freeList := [2], busyList := [3], offloadReadyList := [],
          offloadActiveList := [3], offloadActive := true }
        (MEvent.offloadResp 3 [120]) =
      CStep.next
        { freeList := [2], busyList := [3], offloadReadyList := [],
          offloadActiveList := List.erase [3] 3, offloadActive := false } [] ∧
    mainHandle 5
        { freeList := [4, 5], busyList := [2, 3], offloadReadyList := [2],
          offloadActiveList := [3], offloadActive := true }
        (MEvent.offloadResp 3 [1, 1, 1, 1, 1]) =
      CStep.next
        { freeList := [5], busyList := [2, 3] ++ [4], offloadReadyList := [2],
          offloadActiveList := List.erase [3] 3, offloadActive := false }
        [{ dest := 4, tag := START_PREFIX_TASK, payload := [1, 1, 1, 1, 1] }] :=
  ⟨c5_offloadresp_behavior.1 5
      { freeList := [], busyList := [2], offloadReadyList := [],
        offloadActiveList := [3], offloadActive := true }
      3 [0, 0, 0, 0, 0] (by decide) rfl,
   c5_offloadresp_behavior.2.1 5
      { freeList := [2], busyList := [3], offloadReadyList := [],
        offloadActiveList := [3], offloadActive := true }
      3 [120] (by decide),
   c5_offloadresp_behavior.2.2 5
      { freeList := [4, 5], busyList := [2, 3], offloadReadyList := [2],
        offloadActiveList := [3], offloadActive := true }
      3 [1, 1, 1, 1, 1] 4 [5] (by decide) rfl⟩

/-- A list of length at most one that contains an element is that singleton. -/
theorem length_le_one_mem {l : List Nat} {a : Nat} (h1 : l.length ≤ 1)
    (h2 : a ∈ l) : l = [a] := by
  cases l with
  | nil => cases h2
  | cons x xs =>
    cases xs with
    | nil =>
      simp only [List.mem_singleton] at h2
      subst h2
      rfl
    | cons y ys => simp at h1

/-- The steal trigger preserves the steal bookkeeping invariant. -/
theorem stealTrigger_minv (N : Nat) (lb : Bool) (st : MState) (h : MInv st) :
    MInv (stealTrigger N lb st).1 := by
  unfold stealTrigger
  split
  · rename_i hc
    obtain ⟨hlb, hf, hfw, hr, hfl⟩ := hc
    have hempty : st.offloadActiveList = [] := by
      have h2 := h.2
      rw [hfl] at h2
      cases hise : st.offloadActiveList.isEmpty
      · rw [hise] at h2
        simp at h2
      · exact List.isEmpty_iff.mp hise
    cases hfind : st.offloadReadyList.find?
        (fun r => !st.offloadActiveList.contains r) with
    | none => exact h
    | some w =>
      constructor
      · simp [hempty]
      · simp [hempty]
  · exact h

/-- Definitional unfolding of the FINISH handler of the collection/steal
loop. -/
theorem mainHandle_finish_eq (N : Nat) (st : MState) (src : Nat) :
    mainHandle N st (MEvent.finish src) =
      (if (if src ∈ st.freeList then st.freeList
           else st.freeList ++ [src]).length = N - 2 then
        CStep.aborted AbortReason.allFinished (killAll N) (collectAll N) true
      else
        CStep.next
          { freeList := if src ∈ st.freeList then st.freeList
              else st.freeList ++ [src],
            busyList := st.busyList.erase src,
            offloadReadyList := st.offloadReadyList.erase src,
            offloadActiveList := st.offloadActiveList.erase src,
            offloadActive := if src ∈ st.offloadActiveList then false
              else st.offloadActive } []) := rfl

/-- Definitional unfolding of the OFFLOAD_RESP handler of the
collection/steal loop. -/
theorem mainHandle_resp_eq (N : Nat) (st : MState) (src : Nat) (p : List Nat) :
    mainHandle N st (MEvent.offloadResp src p) =
      (if 4 < p.length then
        match st.freeList with
        | [] => CStep.fatal Fatal.freeAssert []
        | picked :: restFree =>
            CStep.next
              { freeList := restFree, busyList := st.busyList ++ [picked],
                offloadReadyList := st.offloadReadyList,
                offloadActiveList := st.offloadActiveList.erase src,
                offloadActive := false }
              [{ dest := picked, tag := START_PREFIX_TASK, payload := p }]
      else
        CStep.next { st with
          offloadActiveList := st.offloadActiveList.erase src,
          offloadActive := false } []) := rfl

/-- Message handling of the collection/steal loop preserves the steal
bookkeeping invariant, provided an OffloadResp only arrives from the rank
currently recorded in offloadActiveList. -/
theorem mainHandle_minv (N : Nat) (st : MState) (e : MEvent) (st1 : MState)
    (s : List Send) (h : MInv st)
    (hstale : ∀ src p, e = MEvent.offloadResp src p → src ∈ st.offloadActiveList)
    (hh : mainHandle N st e = CStep.next st1 s) : MInv st1 := by
  cases e with
  | bugFound src => simp [mainHandle] at hh
  | timeout => simp [mainHandle] at hh
  | killComp src => simp [mainHandle] at hh
  | readyToOffload src =>
    simp only [mainHandle] at hh
    injection hh with h1 h2
    subst h1
    exact h
  | notReadyToOffload src =>
    simp only [mainHandle] at hh
    injection hh with h1 h2
    subst h1
    exact h
  | finish src =>
    rw [mainHandle_finish_eq] at hh
    by_cases hlen : (if src ∈ st.freeList then st.freeList
        else st.freeList ++ [src]).length = N - 2
    · rw [if_pos hlen] at hh
      exact absurd hh (by simp)
    · rw [if_neg hlen] at hh
      injection hh with h1 h2
      subst h1
      by_cases hmem : src ∈ st.offloadActiveList
      · have hl := length_le_one_mem h.1 hmem
        exact ⟨by simp [hl], by simp [hl, hmem]⟩
      · exact ⟨le_trans (List.length_erase_le _ _) h.1,
          by simp [List.erase_of_not_mem hmem, hmem, h.2]⟩
  | offloadResp src p =>
    have hmem := hstale src p rfl
    have hl := length_le_one_mem h.1 hmem
    rw [mainHandle_resp_eq] at hh
    by_cases h4 : 4 < p.length
    · rw [if_pos h4] at hh
      cases hfl : st.freeList with
      | nil =>
        rw [hfl] at hh
        simp at hh
      | cons picked restFree =>
        rw [hfl] at hh
        change CStep.next
            { freeList := restFree, busyList := st.busyList ++ [picked],
              offloadReadyList := st.offloadReadyList,
              offloadActiveList := st.offloadActiveList.erase src,
              offloadActive := false }
            [{ dest := picked, tag := START_PREFIX_TASK, payload := p }] =
          CStep.next st1 s at hh
        injection hh with h1 h2
        subst h1
        exact ⟨by simp [hl], by simp [hl]⟩
    · rw [if_neg h4] at hh
      injection hh with h1 h2
      subst h1
      exact ⟨by simp [hl], by simp [hl]⟩

/-- One iteration of the collection/steal loop preserves the steal
bookkeeping invariant under the same no-stale-OffloadResp proviso. -/
theorem mainStep_minv (N : Nat) (lb : Bool) (st : MState) (e : Option MEvent)
    (st1 : MState) (s : List Send) (h : MInv st)
    (hstale : ∀ src p, e = some (MEvent.offloadResp src p) →
      src ∈ st.offloadActiveList)
    (hh : mainStep N lb st e = CStep.next st1 s) : MInv st1 := by
  cases e with
  | none =>
    change CStep.next (stealTrigger N lb st).1 (stealTrigger N lb st).2 =
      CStep.next st1 s at hh
    injection hh with h1 h2
    subst h1
    exact stealTrigger_minv N lb st h
  | some m =>
    simp only [mainStep] at hh
    cases hm : mainHandle N st m with
    | next st2 s2 =>
      rw [hm] at hh
      change CStep.next (stealTrigger N lb st2).1
          (s2 ++ (stealTrigger N lb st2).2) = CStep.next st1 s at hh
      injection hh with h1 h2
      subst h1
      have h2m := mainHandle_minv N st m st2 s2 h
        (fun src p hp => hstale src p (by rw [hp])) hm
      exact stealTrigger_minv N lb st2 h2m
    | aborted r s2 rc el =>
      rw [hm] at hh
      simp at hh
    | fatal f s2 =>
      rw [hm] at hh
      simp at hh

/-- A collection/steal-loop run that is still running preserves the steal
bookkeeping invariant over any no-stale trace. -/
theorem mainRun_minv (N : Nat) (lb : Bool) :
    ∀ (evs : List (Option MEvent)) (st st' : MState) (log : List Send),
      MInv st → noStale N lb st evs = true →
      mainRun N lb st evs = CRun.running st' log → MInv st' := by
  intro evs
  induction evs with
  | nil =>
    intro st st' log h hns hr
    simp only [mainRun] at hr
    injection hr with h1 h2
    subst h1
    exact h
  | cons e es ih =>
    intro st st' log h hns hr
    simp only [mainRun] at hr
    cases hs : mainStep N lb st e with
    | next st1 s =>
      rw [hs] at hr
      change CRun.addLog s (mainRun N lb st1 es) = CRun.running st' log at hr
      cases hrec : mainRun N lb st1 es with
      | running st2 log2 =>
        rw [hrec] at hr
        change CRun.running st2 (s ++ log2) = CRun.running st' log at hr
        injection hr with h1 h2
        subst h1
        have hminv1 : MInv st1 := by
          refine mainStep_minv N lb st e st1 s h ?_ hs
          intro src p hp
          subst hp
          simp only [noStale] at hns
          rw [Bool.and_eq_true] at hns
          exact of_decide_eq_true hns.1
        have hns1 : noStale N lb st1 es = true := by
          have hns2 := hns
          simp only [noStale] at hns2
          rw [hs, Bool.and_eq_true] at hns2
          exact hns2.2
        exact ih st1 st2 log2 hminv1 hns1 hrec
      | aborted r log2 rc el =>
        rw [hrec] at hr
        simp [CRun.addLog] at hr
      | fatal f log2 =>
        rw [hrec] at hr
        simp [CRun.addLog] at hr
    | aborted r s rc el =>
      rw [hs] at hr
      simp at hr
    | fatal f s =>
      rw [hs] at hr
      simp at hr

/-- C8 amended: the steal trigger sends an Offload request only when load
balancing is on, freeList is non-empty but not full, no steal is outstanding,
and some offload-ready rank is not already steal-active, and it targets the
first (oldest) such rank, recording it in offloadActiveList; and the
at-most-one-outstanding-steal invariant (|offloadActiveList| at most 1, flag
set iff the list is non-empty) is preserved along any run in which every
OffloadResp comes from the currently recorded steal target.  (The unrestricted
claim is refuted by the stale-OffloadResp counterexample.) -/
theorem c8_steal_invariant :
    (∀ (N : Nat) (lb : Bool) (st : MState),
        (stealTrigger N lb st).2 ≠ [] →
        lb = true ∧ 0 < st.freeList.length ∧ st.freeList.length < N - 2 ∧
          st.offloadActive = false ∧
          ∃ w, st.offloadReadyList.find?
                (fun r => !st.offloadActiveList.contains r) = some w ∧
            w ∈ st.offloadReadyList ∧ w ∉ st.offloadActiveList ∧
            (stealTrigger N lb st).2 =
              [{ dest := w, tag := OFFLOAD, payload := [0] }] ∧
            (stealTrigger N lb st).1.offloadActiveList =
              st.offloadActiveList ++ [w]) ∧
    (∀ (N : Nat) (lb : Bool) (st st' : MState) (evs : List (Option MEvent))
        (log : List Send),
        MInv st → noStale N lb st evs = true →
        mainRun N lb st evs = CRun.running st' log → MInv st') := by
  constructor
  · intro N lb st hne
    by_cases hc : lb = true ∧ 0 < st.freeList.length ∧
        st.freeList.length < N - 2 ∧ 0 < st.offloadReadyList.length ∧
        st.offloadActive = false
    · obtain ⟨hlb, h1, h2, h3, h4⟩ := hc
      refine ⟨hlb, h1, h2, h4, ?_⟩
      cases hfind : st.offloadReadyList.find?
          (fun r => !st.offloadActiveList.contains r) with
      | none =>
        exfalso
        apply hne
        unfold stealTrigger
        rw [if_pos ⟨hlb, h1, h2, h3, h4⟩, hfind]
      | some w =>
        have hpw := List.find?_some hfind
        have hmw := List.mem_of_find?_eq_some hfind
        have hnm : w ∉ st.offloadActiveList := by
          simpa using hpw
        refine ⟨w, rfl, hmw, hnm, ?_, ?_⟩
        · unfold stealTrigger
          rw [if_pos ⟨hlb, h1, h2, h3, h4⟩, hfind]
        · unfold stealTrigger
          rw [if_pos ⟨hlb, h1, h2, h3, h4⟩, hfind]
    · exfalso
      apply hne
      unfold stealTrigger
      rw [if_neg hc]
  · intro N lb st st' evs log h hns hr
    exact mainRun_minv N lb evs st st' log h hns hr

/-- C8 counterexample: a reachable run (N = 6, lb on, four prefixes seeded so
the dispatch loop consumes nothing) in which worker 3 finishes after being
chosen as steal target, its stale OffloadResp later clears the
`offloadActive` flag while worker 4 is still steal-active, and the next
trigger adds worker 5 — leaving offloadActiveList = [4, 5], two outstanding
steals, refuting |OffloadActive| at most 1. -/
theorem c8_counterexample :
    dispatchRun 6 [[0], [1], [0], [1]]
        (seedPhase 6 true [[0], [1], [0], [1]]).1 [] =
      DResult.ok (seedPhase 6 true [[0], [1], [0], [1]]).1 [] [] ∧
    ((mainRun 6 true (phaseCInit (seedPhase 6 true [[0], [1], [0], [1]]).1)
        [some (MEvent.finish 2), some (MEvent.readyToOffload 3),
         some (MEvent.readyToOffload 4), some (MEvent.finish 3),
         some (MEvent.readyToOffload 5),
         some (MEvent.offloadResp 3 [120])]).stateOf.map
      (fun st => st.offloadActiveList)) = some [4, 5] := by
  exact ⟨by decide, by decide⟩

/-- C8 witness: both parts of the amended statement applied at concrete
inputs, with every hypothesis discharged. -/
theorem c8_steal_invariant_witness :
    (true = true ∧ (0 : Nat) < 1 ∧ (1 : Nat) < 6 - 2 ∧ (false : Bool) = false ∧
      ∃ w, ([3, 4] : List Nat).find?
            (fun r => !(([] : List Nat).contains r)) = some w ∧
        w ∈ ([3, 4] : List Nat) ∧ w ∉ ([] : List Nat) ∧
        (stealTrigger 6 true
          { freeList := [2], busyList := [3, 4], offloadReadyList := [3, 4],
            offloadActiveList := [], offloadActive := false }).2 =
          [{ dest := w, tag := OFFLOAD, payload := [0] }] ∧
        (stealTrigger 6 true
          { freeList := [2], busyList := [3, 4], offloadReadyList := [3, 4],
            offloadActiveList := [], offloadActive := false }).1.offloadActiveList =
          [] ++ [w]) ∧
    MInv { freeList := [2], busyList := [3, 4], offloadReadyList := [3, 4],
           offloadActiveList := [3], offloadActive := true } :=
  ⟨c8_steal_invariant.1 6 true
      { freeList := [2], busyList := [3, 4], offloadReadyList := [3, 4],
        offloadActiveList := [], offloadActive := false } (by decide),
   c8_steal_invariant.2 6 true
      { freeList := [2], busyList := [3, 4], offloadReadyList := [3],
        offloadActiveList := [], offloadActive := false }
      { freeList := [2], busyList := [3, 4], offloadReadyList := [3, 4],
        offloadActiveList := [3], offloadActive := true }
      [some (MEvent.readyToOffload 4), none]
      [{ dest := 3, tag := OFFLOAD, payload := [0] }]
      (by decide) (by decide) (by decide)⟩
